import Mathlib

/-!
Verification of the Corty TUI event-dispatch and virtualized scrollback
subsystem against its natural-language specification.

The definitions below are a shallow embedding of the Rust sources under
crates/tui/src.  Text is modelled as lists of characters; every character
used by the embedded code paths occupies one terminal column, so the
display width of a line is its length.  Machine integers are modelled as
Nat with Rust's saturating operations made explicit; usize::MAX (the
scroll sentinel) is the explicit constant USIZE_MAX.
-/

namespace Corty

/-- usize::MAX on a 64-bit target: the "stick to bottom" scroll sentinel
(chat_history.rs, scroll_position comment). -/
def USIZE_MAX : Nat := 2 ^ 64 - 1

/-- Rust usize::saturating_add (saturation point usize::MAX). -/
def satAdd (a b : Nat) : Nat := min (a + b) USIZE_MAX

/-- Rust usize::div_ceil. -/
def divCeil (a b : Nat) : Nat := (a + b - 1) / b

/-- Reduction of an integer to the i32 two's-complement value it denotes:
the result lies in [-2^31, 2^31).  This is the wrapping the program's
i32 arithmetic performs (AtomicI32::fetch_add / fetch_sub always wrap;
release-mode overflow of i32 multiplication wraps). -/
def wrapI32 (x : Int) : Int := (x + 2 ^ 31) % 2 ^ 32 - 2 ^ 31

/-- Rust str::lines over a character list: split on a newline, strip one
trailing carriage return from each piece, and drop the final empty piece
produced by a terminating newline. -/
def rustLines (s : List Char) : List (List Char) :=
  if s = [] then []
  else
    let parts := (s.splitOn '\n').map fun l =>
      if l.getLast? = some '\r' then l.dropLast else l
    if s.getLast? = some '\n' then parts.dropLast else parts

/-- USER_MESSAGE_PREFIX from constants.rs. -/
def userMessagePre : List Char := ['>', ' ']

/-- AGENT_MESSAGE_PREFIX from constants.rs. -/
def agentMessagePre : List Char := ['●', ' ']

/-- Continuation-line indent used by both message constructors. -/
def contIndent : List Char := [' ', ' ']

/-- Line construction of ChatHistoryBlock::new_user_message: the first
line carries the user marker, later lines are indented, and one empty
line is appended. -/
def newUserMessageLines (msg : List Char) : List (List Char) :=
  match rustLines msg with
  | [] => [[]]
  | first :: rest =>
      (userMessagePre ++ first) :: rest.map (fun l => contIndent ++ l) ++ [[]]

/-- Line construction of ChatHistoryBlock::new_agent_message. -/
def newAgentMessageLines (msg : List Char) : List (List Char) :=
  match rustLines msg with
  | [] => [[]]
  | first :: rest =>
      (agentMessagePre ++ first) :: rest.map (fun l => contIndent ++ l) ++ [[]]

/-- ChatHistoryBlock from chat_history.rs: user message, agent message, or
the AI working indicator. -/
inductive Block where
  | userMessage (lines : List (List Char))
  | agentMessage (lines : List (List Char))
  | aiWorking (elapsedMs : Nat)
deriving DecidableEq

/-- ChatHistoryBlock::new_user_message. -/
def Block.newUserMessage (msg : List Char) : Block :=
  Block.userMessage (newUserMessageLines msg)

/-- ChatHistoryBlock::new_agent_message. -/
def Block.newAgentMessage (msg : List Char) : Block :=
  Block.agentMessage (newAgentMessageLines msg)

/-- ChatHistoryBlock::new_ai_working (elapsed starts at 0). -/
def Block.newAiWorking : Block := Block.aiWorking 0

/-- Whether a block is the AI working indicator. -/
def Block.isAiWorking : Block → Bool
  | Block.aiWorking _ => true
  | _ => false

/-- Per-line row contribution in ChatHistoryBlock::height: an empty line
is one row, a fitting line is one row, a longer line wraps into
ceil(L/W) rows capped at 100. -/
def lineRows (w lw : Nat) : Nat :=
  if lw = 0 then 1
  else if lw ≤ w then 1
  else min (divCeil lw w) 100

/-- The accumulation loop of ChatHistoryBlock::height, with the early
return at 1000 processed rows and the final clamp(1, 1000). -/
def heightLoop (w : Nat) : List (List Char) → Nat → Nat
  | [], total => max 1 (min total 1000)
  | l :: ls, total =>
      let t := total + lineRows w l.length
      if t > 1000 then 1000 else heightLoop w ls t

/-- ChatHistoryBlock::height: rendered row count of a block at a width.
Messages with more than 500 stored lines use the estimate
(2 × line count, capped at 5000); the AI working indicator is 2 rows. -/
def Block.height (b : Block) (width : Nat) : Nat :=
  match b with
  | Block.userMessage lines =>
      if width = 0 ∨ lines = [] then 1
      else if lines.length > 500 then min (lines.length * 2) 5000
      else heightLoop width lines 0
  | Block.agentMessage lines =>
      if width = 0 ∨ lines = [] then 1
      else if lines.length > 500 then min (lines.length * 2) 5000
      else heightLoop width lines 0
  | Block.aiWorking _ => 2

/-- Entry from chat_history.rs: a block together with its cached row
count (the interior-mutable Cell is modelled by explicit state passing). -/
structure Entry where
  cell : Block
  lineCount : Nat
deriving DecidableEq

/-- ChatHistoryState from chat_history.rs. -/
structure ChatHistoryState where
  entries : List Entry
  cachedWidth : Nat
  scrollPosition : Nat
  numRenderedLines : Nat
  lastViewportHeight : Nat
  hasInputFocus : Bool
  mouseCaptureActive : Bool
deriving DecidableEq

/-- ChatHistoryState::default. -/
def ChatHistoryState.init : ChatHistoryState :=
  { entries := []
    cachedWidth := 0
    scrollPosition := USIZE_MAX
    numRenderedLines := 0
    lastViewportHeight := 0
    hasInputFocus := false
    mouseCaptureActive := true }

/-- ChatHistoryState::clear. -/
def ChatHistoryState.clear (st : ChatHistoryState) : ChatHistoryState :=
  { st with
    entries := []
    scrollPosition := USIZE_MAX
    numRenderedLines := 0
    lastViewportHeight := 0 }

/-- ChatHistoryState::add_to_history: cache the height at the cached
width (0 when no width is known yet), push the entry, and pin the scroll
to the bottom. -/
def ChatHistoryState.addToHistory (st : ChatHistoryState) (cell : Block) :
    ChatHistoryState :=
  let count := if st.cachedWidth > 0 then cell.height st.cachedWidth else 0
  { st with
    entries := st.entries ++ [⟨cell, count⟩]
    scrollPosition := USIZE_MAX }

/-- ChatHistoryState::add_user_message. -/
def ChatHistoryState.addUserMessage (st : ChatHistoryState) (msg : List Char) :
    ChatHistoryState :=
  st.addToHistory (Block.newUserMessage msg)

/-- ChatHistoryState::add_agent_message. -/
def ChatHistoryState.addAgentMessage (st : ChatHistoryState) (msg : List Char) :
    ChatHistoryState :=
  st.addToHistory (Block.newAgentMessage msg)

/-- ChatHistoryState::add_ai_working. -/
def ChatHistoryState.addAiWorking (st : ChatHistoryState) : ChatHistoryState :=
  st.addToHistory Block.newAiWorking

/-- ChatHistoryState::remove_ai_working (retain non-indicator entries). -/
def ChatHistoryState.removeAiWorking (st : ChatHistoryState) : ChatHistoryState :=
  { st with entries := st.entries.filter fun e => !e.cell.isAiWorking }

/-- ChatHistoryState::update_ai_working. -/
def ChatHistoryState.updateAiWorking (st : ChatHistoryState) (ms : Nat) :
    ChatHistoryState :=
  { st with
    entries := st.entries.map fun e =>
      match e.cell with
      | Block.aiWorking _ => { e with cell := Block.aiWorking ms }
      | _ => e }

/-- Number of live AI working indicators in the history. -/
def countAiWorking (es : List Entry) : Nat :=
  (es.filter fun e => e.cell.isAiWorking).length

/-- ChatHistory::scroll_up: convert from the stick-to-bottom sentinel to
an explicit position and move up (Nat subtraction is Rust's
saturating_sub). -/
def scrollUp (n : Nat) (st : ChatHistoryState) : ChatHistoryState :=
  let pos :=
    if st.scrollPosition = USIZE_MAX then
      st.numRenderedLines - st.lastViewportHeight
    else st.scrollPosition
  { st with scrollPosition := pos - n }

/-- ChatHistory::scroll_down. -/
def scrollDown (n : Nat) (st : ChatHistoryState) : ChatHistoryState :=
  if st.scrollPosition = USIZE_MAX then st
  else
    let viewportHeight := max st.lastViewportHeight 1
    let maxScroll := st.numRenderedLines - viewportHeight
    let newPos := satAdd st.scrollPosition n
    if newPos ≥ maxScroll then { st with scrollPosition := USIZE_MAX }
    else { st with scrollPosition := newPos }

/-- ChatHistory::scroll_page_up. -/
def scrollPageUp (st : ChatHistoryState) : ChatHistoryState :=
  let viewportHeight := max st.lastViewportHeight 1
  let pos :=
    if st.scrollPosition = USIZE_MAX then
      st.numRenderedLines - viewportHeight
    else st.scrollPosition
  { st with scrollPosition := pos - viewportHeight }

/-- ChatHistory::scroll_page_down. -/
def scrollPageDown (st : ChatHistoryState) : ChatHistoryState :=
  if st.scrollPosition = USIZE_MAX then st
  else
    let viewportHeight := max st.lastViewportHeight 1
    let maxScroll := st.numRenderedLines - viewportHeight
    let newPos := satAdd st.scrollPosition viewportHeight
    if newPos ≥ maxScroll then { st with scrollPosition := USIZE_MAX }
    else { st with scrollPosition := newPos }

/-- ChatHistory::scroll: negative deltas scroll up by the magnitude,
positive deltas scroll down. -/
def scroll (delta : Int) (st : ChatHistoryState) : ChatHistoryState :=
  if delta < 0 then scrollUp delta.natAbs st
  else if 0 < delta then scrollDown delta.natAbs st
  else st

/-- ChatWidget::handle_scroll_event magnification: single-line deltas
are preserved, larger deltas are doubled by the i32 multiplication
scroll_delta * 2, which wraps (release overflow semantics) when the
doubled value leaves the i32 range.  The source's scroll_delta.abs() == 1
test agrees with natAbs = 1 on every i32 value, including i32::MIN,
whose wrapped abs is itself. -/
def magnifiedDelta (d : Int) : Int :=
  if d.natAbs = 1 then d else wrapI32 (d * 2)

/-- The width-change recomputation loop of ChatHistory::render: recompute
and re-cache each entry's height in order, accumulate with saturating
addition, and break once the running total exceeds 10000 rows (entries
after the break keep their old cached counts). -/
def recacheLoop (w : Nat) : List Entry → Nat → List Entry × Nat
  | [], acc => ([], acc)
  | e :: es, acc =>
      let c := e.cell.height w
      let e' : Entry := ⟨e.cell, c⟩
      let acc' := satAdd acc c
      if acc' > 10000 then (e' :: es, acc')
      else
        let r := recacheLoop w es acc'
        (e' :: r.1, r.2)

/-- The row-count phase of ChatHistory::render, run before any drawing:
when the effective width differs from the cached width, recompute the
cached counts of at most the first 1000 entries through recacheLoop;
otherwise sum the cached counts of the first 1000 entries.  Returns the
updated state and the total row count (capped at 10000). -/
def renderRecache (st : ChatHistoryState) (effectiveWidth : Nat) :
    ChatHistoryState × Nat :=
  if st.cachedWidth ≠ effectiveWidth then
    let r := recacheLoop effectiveWidth (st.entries.take 1000) 0
    ({ st with
        cachedWidth := effectiveWidth
        entries := r.1 ++ st.entries.drop 1000 },
      min r.2 10000)
  else
    (st, min ((st.entries.take 1000).map Entry.lineCount).sum 10000)

/-! ### ScrollEventHelper (utils/scroll_event_helper.rs)

One wheel tick adjusts the signed accumulator and tries to schedule the
one-shot debounce timer through a compare-and-set on the scheduled flag.
The claims concern one burst: all ticks land inside the debounce window,
so the timer body (read-and-zero the accumulator, emit a single scroll
event when it is nonzero, clear the flag) runs after the whole burst. -/

/-- A wheel tick: ScrollEventHelper::scroll_down adds 1 to the
accumulator, ScrollEventHelper::scroll_up subtracts 1. -/
inductive Tick where
  | up
  | down
deriving DecidableEq

/-- Signed contribution of one tick. -/
def Tick.val : Tick → Int
  | Tick.up => -1
  | Tick.down => 1

/-- The shared state of ScrollEventHelper: the AtomicI32 accumulator and
the AtomicBool timer flag.  The accumulator holds the i32 value as an
integer; the wrapping tick operations keep it inside [-2^31, 2^31). -/
structure ScrollHelper where
  delta : Int
  timerScheduled : Bool
deriving DecidableEq

/-- Fresh helper: accumulator 0, no timer scheduled. -/
def ScrollHelper.start : ScrollHelper := ⟨0, false⟩

/-- ScrollEventHelper::schedule_notification: the compare_exchange on
timer_scheduled; the Bool records whether a new timer was started. -/
def scheduleNotification (h : ScrollHelper) : ScrollHelper × Bool :=
  if h.timerScheduled then (h, false)
  else ({ h with timerScheduled := true }, true)

/-- One tick: adjust the accumulator with the wrapping i32 addition of
AtomicI32::fetch_add / fetch_sub, then try to schedule the timer. -/
def applyTick (h : ScrollHelper) (t : Tick) : ScrollHelper × Bool :=
  scheduleNotification { h with delta := wrapI32 (h.delta + t.val) }

/-- A burst of ticks; the Nat counts how many timers were started. -/
def applyTicks : ScrollHelper → List Tick → ScrollHelper × Nat
  | h, [] => (h, 0)
  | h, t :: ts =>
      let r := applyTick h t
      let r2 := applyTicks r.1 ts
      (r2.1, (if r.2 then 1 else 0) + r2.2)

/-- The timer body after the debounce window elapses: swap the
accumulator to 0, emit one Scroll event when the value was nonzero, and
clear the scheduled flag. -/
def fireTimer (h : ScrollHelper) : ScrollHelper × List Int :=
  (⟨0, false⟩, if h.delta ≠ 0 then [h.delta] else [])

/-- Signed sum of a burst of ticks. -/
def netSum (ts : List Tick) : Int := (ts.map Tick.val).sum

/-! ### Shutdown sequence (app.rs, App::run after the loop exits)

The main loop breaks on ExitRequest; the statements that follow run in
program order: tui::restore(), then shutdown_flag.store(true), then
awaiting the blocking input-pump task. -/

/-- The three shutdown actions of App::run. -/
inductive ShutdownStep where
  | restoreTerminal
  | setShutdownFlag
  | joinInputPump
deriving DecidableEq

/-- The order in which App::run performs the shutdown actions after the
main loop exits (app.rs lines 286-291): restore the terminal, set the
shutdown flag, await the input-pump blocking task. -/
def shutdownSequence : List ShutdownStep :=
  [ShutdownStep.restoreTerminal, ShutdownStep.setShutdownFlag,
    ShutdownStep.joinInputPump]

/-- Happens-before over the straight-line shutdown sequence. -/
def happensBefore (a b : ShutdownStep) : Prop :=
  shutdownSequence.indexOf a < shutdownSequence.indexOf b

/-! ### Slash commands and the command popup (slash_command.rs,
widgets/command_popup.rs) -/

/-- SlashCommand from slash_command.rs. -/
inductive SlashCommand where
  | clear
  | askAI
  | fullscreen
deriving DecidableEq

/-- SlashCommand::command (the strum kebab-case serialization). -/
def SlashCommand.command : SlashCommand → List Char
  | SlashCommand.clear => "clear".toList
  | SlashCommand.askAI => "ask-ai".toList
  | SlashCommand.fullscreen => "fullscreen".toList

/-- SlashCommand::requires_input. -/
def SlashCommand.requiresInput : SlashCommand → Bool
  | SlashCommand.clear => false
  | SlashCommand.askAI => true
  | SlashCommand.fullscreen => false

/-- built_in_slash_commands (strum iteration order = declaration order). -/
def builtInSlashCommands : List SlashCommand :=
  [SlashCommand.clear, SlashCommand.askAI, SlashCommand.fullscreen]

/-- Rust str::to_lowercase, character by character.  Every character in
the command names and filters handled here is ASCII, where Rust's Unicode
lowercasing agrees with Char.toLower. -/
def lowerChars (s : List Char) : List Char := s.map Char.toLower

/-- CommandPopup from command_popup.rs. -/
structure CommandPopup where
  commands : List SlashCommand
  filteredCommands : List SlashCommand
  selectedIndex : Option Nat
  filter : List Char
deriving DecidableEq

/-- CommandPopup::new. -/
def CommandPopup.new : CommandPopup :=
  let commands := builtInSlashCommands
  { commands := commands
    filteredCommands := commands
    selectedIndex := if commands.isEmpty then none else some 0
    filter := [] }

/-- CommandPopup::apply_filter: case-insensitive match of the filter
against the front of each command name, preserving list order, then
clamp (or clear) the selection. -/
def CommandPopup.applyFilter (p : CommandPopup) : CommandPopup :=
  let filtered :=
    if p.filter.isEmpty then p.commands
    else
      p.commands.filter fun c =>
        (lowerChars p.filter).isPrefixOf (lowerChars c.command)
  let selected :=
    if filtered.isEmpty then none
    else some (min (p.selectedIndex.getD 0) (filtered.length - 1))
  { p with filteredCommands := filtered, selectedIndex := selected }

/-- First whitespace-separated word of a character list (Rust
split_whitespace().next().unwrap_or("")). -/
def firstWord (s : List Char) : List Char :=
  (s.dropWhile Char.isWhitespace).takeWhile fun c => !c.isWhitespace

/-- The filter string CommandPopup::update_filter extracts from the
input text: the first whitespace-separated word after the leading slash,
empty when the text does not start with the slash. -/
def extractFilter (text : List Char) : List Char :=
  match text with
  | '/' :: rest => firstWord rest
  | _ => []

/-- CommandPopup::update_filter: store the extracted filter, then
refilter. -/
def CommandPopup.updateFilter (p : CommandPopup) (text : List Char) :
    CommandPopup :=
  CommandPopup.applyFilter { p with filter := extractFilter text }

/-- CommandPopup::select_previous (wraps to the end at the top). -/
def CommandPopup.selectPrevious (p : CommandPopup) : CommandPopup :=
  match p.selectedIndex with
  | none => p
  | some index =>
      if 0 < index then { p with selectedIndex := some (index - 1) }
      else { p with selectedIndex := some (p.filteredCommands.length - 1) }

/-- CommandPopup::select_next (wraps to the start at the bottom). -/
def CommandPopup.selectNext (p : CommandPopup) : CommandPopup :=
  match p.selectedIndex with
  | none => p
  | some index =>
      if index < p.filteredCommands.length - 1 then
        { p with selectedIndex := some (index + 1) }
      else { p with selectedIndex := some 0 }

/-- CommandPopup::selected_command. -/
def CommandPopup.selectedCommand (p : CommandPopup) : Option SlashCommand :=
  match p.selectedIndex with
  | none => none
  | some idx => p.filteredCommands.get? idx

/-- CommandPopup::has_commands. -/
def CommandPopup.hasCommands (p : CommandPopup) : Bool :=
  !p.filteredCommands.isEmpty

/-! ### Application events, keys, and the textarea (event.rs, app.rs,
widgets/chat.rs)

The input textarea comes from the external tui_textarea crate; it is
modelled by its observable line buffer.  Only the editing operations the
embedded code paths exercise are modelled: inserting a character at the
end, inserting a newline, clearing (select_all + cut), and replacing the
whole content with a single newline-free string (select_all + cut +
insert_str as used by the popup handlers). -/

/-- Key codes that the dispatch logic distinguishes. -/
inductive KeyCodeM where
  | char (c : Char)
  | enter
  | esc
  | tab
  | upA
  | downA
  | pageUp
  | pageDown
  | otherKey
deriving DecidableEq

/-- A key event (code plus the modifier flags the code inspects).  The
tui_textarea Input conversion keeps the code and modifiers, so the same
value serves as the converted Input. -/
structure KeyEventM where
  code : KeyCodeM
  ctrl : Bool
  shift : Bool
  alt : Bool
deriving DecidableEq

/-- A plain (unmodified) key press. -/
def plainKey (c : KeyCodeM) : KeyEventM := ⟨c, false, false, false⟩

/-- AppEvent from event.rs. -/
inductive AppEvent where
  | redraw
  | core
  | coreAI
  | scrollEv (delta : Int)
  | keyEv (k : KeyEventM)
  | exitRequest
  | mouseCaptureChanged (b : Bool)
  | toggleFullscreen
  | errorEv (msg : List Char)
  | aiProcessingComplete
deriving DecidableEq

/-- The textarea's line buffer (cursor at the end of the last line). -/
abbrev Textarea := List (List Char)

/-- tui_textarea is_empty: exactly one empty line. -/
def taIsEmpty (ta : Textarea) : Bool := ta = ([[]] : List (List Char))

/-- textarea.lines().join("\n"). -/
def taText (ta : Textarea) : List Char :=
  (List.intercalate ['\n'] ta : List Char)

/-- Insert a character at the cursor (end of the last line). -/
def taInsertChar : Textarea → Char → Textarea
  | [], c => [[c]]
  | [l], c => [l ++ [c]]
  | l :: ls, c => l :: taInsertChar ls c

/-- tui_textarea insert_newline at the cursor. -/
def taInsertNewline (ta : Textarea) : Textarea :=
  (ta ++ [[]] : List (List Char))

/-- ChatWidget::clear_text_area (select_all + cut). -/
def taClear : Textarea := ([[]] : List (List Char))

/-- select_all + cut + insert_str with a newline-free string. -/
def taSetText (s : List Char) : Textarea := [s]

/-- tui_textarea input() for the inputs that reach it here: a plain
character is inserted, Enter (with modifiers, e.g. the pasted-newline
shift+enter chord) inserts a line break, and the remaining chords are
cursor or editing shortcuts that insert no text (none are exercised by
the claims). -/
def taInput (ta : Textarea) (k : KeyEventM) : Textarea :=
  match k.code with
  | KeyCodeM.char c => if k.ctrl then ta else taInsertChar ta c
  | KeyCodeM.enter => taInsertNewline ta
  | _ => ta

/-- Rust str::trim over the ASCII whitespace that can occur here. -/
def trimChars (s : List Char) : List Char :=
  ((s.dropWhile Char.isWhitespace).reverse.dropWhile Char.isWhitespace).reverse

/-- strip a literal front piece from a character list (str::strip with a
constant pattern). -/
def stripFront : List Char → List Char → Option (List Char)
  | [], s => some s
  | _ :: _, [] => none
  | p :: ps, c :: cs => if p = c then stripFront ps cs else none

/-- The invocation text "/command " written into the textarea by the
popup handlers and stripped again on submit. -/
def commandInvocation (cmd : SlashCommand) : List Char :=
  '/' :: cmd.command ++ [' ']

/-- AI_ERROR_RESPONSE from constants.rs. -/
def aiErrorResponse : List Char :=
  "Sorry, I couldn't process your request due to a connection error. Please try again later.".toList

/-! ### ChatWidget (widgets/chat.rs)

set_placeholder and set_border only restyle the textarea chrome and are
not part of the modelled state.  Each handler returns the updated widget
together with the events it sends (request_redraw sends Redraw,
dispatch_event sends the given event), in send order. -/

/-- The ChatWidget fields the dispatch logic reads or writes. -/
structure ChatWidgetM where
  hist : ChatHistoryState
  textarea : Textarea
  mouseCaptureActive : Bool
  commandPopup : Option CommandPopup
  activeCommand : Option SlashCommand
  fullscreenMode : Bool
  aiWorkingStart : Option Nat
  aiProcessing : Bool
  savedTextareaContent : Option Textarea
deriving DecidableEq

/-- ChatWidget::new (App::new then sets mouse capture active). -/
def ChatWidgetM.new : ChatWidgetM :=
  { hist := ChatHistoryState.init
    textarea := taClear
    mouseCaptureActive := true
    commandPopup := none
    activeCommand := none
    fullscreenMode := false
    aiWorkingStart := none
    aiProcessing := false
    savedTextareaContent := none }

/-- ChatWidget::update_command_popup: show the popup only while the text
is a slash followed by no whitespace, refilter it, and drop it when no
command matches. -/
def updateCommandPopup (w : ChatWidgetM) : ChatWidgetM :=
  if w.activeCommand.isSome then w
  else
    let text := taText w.textarea
    let startsSlash : Bool :=
      match text with
      | '/' :: _ => true
      | _ => false
    if startsSlash && !text.contains ' ' then
      let p := (w.commandPopup.getD CommandPopup.new).updateFilter text
      if p.hasCommands then { w with commandPopup := some p }
      else { w with commandPopup := none }
    else { w with commandPopup := none }

/-- ChatWidget::execute_slash_command. -/
def executeSlashCommand (w : ChatWidgetM) (cmd : SlashCommand)
    (promptText : Option (List Char)) : ChatWidgetM × List AppEvent :=
  match cmd with
  | SlashCommand.clear =>
      ({ w with hist := w.hist.clear }, [AppEvent.redraw])
  | SlashCommand.askAI =>
      match promptText with
      | some pr =>
          ({ w with hist := w.hist.addUserMessage pr }, [AppEvent.core])
      | none => (w, [])
  | SlashCommand.fullscreen =>
      ({ w with fullscreenMode := !w.fullscreenMode },
        [AppEvent.toggleFullscreen, AppEvent.redraw])

/-- ChatWidget::handle_textarea_input. -/
def handleTextareaInput (w : ChatWidgetM) (k : KeyEventM) :
    ChatWidgetM × List AppEvent :=
  let base : ChatWidgetM × List AppEvent :=
    match k.code, k.ctrl, k.shift, k.alt with
    | KeyCodeM.esc, _, _, _ =>
        if w.activeCommand.isSome then
          ({ w with activeCommand := none, textarea := taClear },
            [AppEvent.redraw])
        else (w, [])
    | KeyCodeM.enter, false, false, false =>
        let text := taText w.textarea
        match w.activeCommand with
        | some cmd =>
            let promptText :=
              match stripFront (commandInvocation cmd) text with
              | some stripped => stripped
              | none => text
            let r :=
              if trimChars promptText ≠ [] then
                executeSlashCommand w cmd (some promptText)
              else (w, [])
            ({ r.1 with textarea := taClear, activeCommand := none }, r.2)
        | none =>
            if trimChars text ≠ [] then
              ({ w with
                  hist := w.hist.addUserMessage text
                  textarea := taClear }, [AppEvent.core])
            else (w, [])
    | KeyCodeM.char 'n', true, _, _ =>
        ({ w with textarea := taInsertNewline w.textarea }, [])
    | _, _, _, _ =>
        (updateCommandPopup { w with textarea := taInput w.textarea k }, [])
  (base.1, base.2 ++ [AppEvent.redraw])

/-- ChatWidget::handle_command_popup_key_event. -/
def handleCommandPopupKeyEvent (w : ChatWidgetM) (k : KeyEventM) :
    ChatWidgetM × List AppEvent :=
  match k.code, k.ctrl, k.shift, k.alt with
  | KeyCodeM.upA, _, _, _ =>
      match w.commandPopup with
      | some p =>
          ({ w with commandPopup := some p.selectPrevious }, [AppEvent.redraw])
      | none => (w, [])
  | KeyCodeM.downA, _, _, _ =>
      match w.commandPopup with
      | some p =>
          ({ w with commandPopup := some p.selectNext }, [AppEvent.redraw])
      | none => (w, [])
  | KeyCodeM.tab, _, _, _ =>
      match w.commandPopup with
      | some p =>
          match p.selectedCommand with
          | some cmd =>
              let w1 := { w with textarea := taSetText (commandInvocation cmd) }
              if cmd.requiresInput then
                ({ w1 with activeCommand := some cmd, commandPopup := none },
                  [AppEvent.redraw])
              else (updateCommandPopup w1, [AppEvent.redraw])
          | none => (w, [])
      | none => (w, [])
  | KeyCodeM.enter, false, false, false =>
      match w.commandPopup with
      | some p =>
          match p.selectedCommand with
          | some cmd =>
              if cmd.requiresInput then
                ({ w with
                    activeCommand := some cmd
                    textarea := taSetText (commandInvocation cmd)
                    commandPopup := none }, [AppEvent.redraw])
              else
                let r := executeSlashCommand w cmd none
                ({ r.1 with textarea := taClear, commandPopup := none },
                  r.2 ++ [AppEvent.redraw])
          | none => handleTextareaInput w k
      | none => handleTextareaInput w k
  | KeyCodeM.esc, _, _, _ =>
      ({ w with commandPopup := none }, [AppEvent.redraw])
  | _, _, _, _ =>
      (updateCommandPopup { w with textarea := taInput w.textarea k },
        [AppEvent.redraw])

/-- ChatHistory::handle_key_event: the scroll keys and their effect;
none when the key is not a scroll key. -/
def histKeyApply (k : KeyEventM) (st : ChatHistoryState) :
    Option ChatHistoryState :=
  match k.code with
  | KeyCodeM.upA => some (scrollUp 1 st)
  | KeyCodeM.downA => some (scrollDown 1 st)
  | KeyCodeM.pageUp => some (scrollPageUp st)
  | KeyCodeM.pageDown => some (scrollPageDown st)
  | KeyCodeM.char c =>
      if c = 'k' then some (scrollUp 1 st)
      else if c = 'j' then some (scrollDown 1 st)
      else if c = 'b' then some (scrollPageUp st)
      else if c = ' ' then some (scrollPageDown st)
      else none
  | _ => none

/-- ChatWidget::handle_key_event: all input is blocked while the AI is
processing; otherwise the popup, the chat history scroll keys, and the
textarea get the event in that order. -/
def handleKeyEvent (w : ChatWidgetM) (k : KeyEventM) :
    ChatWidgetM × List AppEvent :=
  if w.aiProcessing then (w, [])
  else if w.commandPopup.isSome then handleCommandPopupKeyEvent w k
  else
    match histKeyApply k w.hist with
    | some h => ({ w with hist := h }, [AppEvent.redraw])
    | none => handleTextareaInput w k

/-- ChatWidget::handle_core_event.  The Bool records whether the handler
spawned the delayed background task (the CoreAI branch spawns a task that
sends Error and AiProcessingComplete after a two-second sleep). -/
def handleCoreEvent (w : ChatWidgetM) (e : AppEvent) :
    ChatWidgetM × List AppEvent × Bool :=
  match e with
  | AppEvent.coreAI =>
      let w1 := { w with
        hist := w.hist.addAiWorking
        aiWorkingStart := some 0
        aiProcessing := true }
      let w2 :=
        if !taIsEmpty w1.textarea then
          { w1 with
              savedTextareaContent := some w1.textarea
              textarea := taClear }
        else w1
      (w2, [AppEvent.redraw], true)
  | AppEvent.aiProcessingComplete =>
      let w1 := { w with
        hist := w.hist.removeAiWorking
        aiWorkingStart := none
        aiProcessing := false }
      let w2 :=
        match w1.savedTextareaContent with
        | some content =>
            { w1 with savedTextareaContent := none, textarea := content }
        | none => w1
      let w3 := { w2 with hist := w2.hist.addAgentMessage aiErrorResponse }
      (w3, [AppEvent.redraw], false)
  | _ => (w, [], false)

/-- ChatWidget::handle_scroll_event: magnify the delta and scroll. -/
def handleScrollEventW (w : ChatWidgetM) (d : Int) :
    ChatWidgetM × List AppEvent :=
  ({ w with hist := scroll (magnifiedDelta d) w.hist }, [AppEvent.redraw])

/-- ChatWidget::set_mouse_capture_active. -/
def setMouseCaptureActiveW (w : ChatWidgetM) (b : Bool) : ChatWidgetM :=
  { w with
      mouseCaptureActive := b
      hist := { w.hist with mouseCaptureActive := b } }

/-! ### The main loop (app.rs, App::run)

One admissible schedule of the real system: the consumer processes the
queue front to back, and every send appends at the back (FIFO).  The
delayed background tasks spawned by the CoreAI handler sleep two seconds
before sending anything, so within a short trace they are still pending;
the model counts them. -/

/-- The App state driven by the event loop. -/
structure AppModel where
  widget : ChatWidgetM
  queue : List AppEvent
  fullscreenMode : Bool
  captureActive : Bool
  toastCount : Nat
  pendingAiTasks : Nat
  exited : Bool
deriving DecidableEq

/-- A freshly constructed App with an initial backlog of queued events
(raw key events already translated and delivered by the input pump). -/
def AppModel.start (q : List AppEvent) : AppModel :=
  { widget := ChatWidgetM.new
    queue := q
    fullscreenMode := false
    captureActive := true
    toastCount := 0
    pendingAiTasks := 0
    exited := false }

/-- Append freshly sent events at the back of the queue. -/
def pushAll (s : AppModel) (evs : List AppEvent) : AppModel :=
  { s with queue := s.queue ++ evs }

/-- One iteration of the App::run select loop on the event branch:
process the event at the front of the queue.  Redraw runs
terminal.draw, which paints the widgets and refreshes per-entry layout
caches; it adds or removes no history entries and never touches the
processing flag, so it is the identity on the modelled fields. -/
def appStep (s : AppModel) : AppModel :=
  match s.queue with
  | [] => s
  | e :: rest =>
      let s0 := { s with queue := rest }
      match e with
      | AppEvent.redraw => s0
      | AppEvent.keyEv k =>
          if (k.code = KeyCodeM.char 'y' ∨ k.code = KeyCodeM.char 'Y') ∧
              k.ctrl ∧ ¬k.shift ∧ ¬k.alt then
            let s1 := { s0 with captureActive := !s0.captureActive }
            pushAll s1 [AppEvent.mouseCaptureChanged s1.captureActive]
          else if k.code = KeyCodeM.char 'd' ∧ k.ctrl ∧ ¬k.shift ∧ ¬k.alt then
            pushAll s0 [AppEvent.exitRequest]
          else
            let r := handleKeyEvent s0.widget k
            pushAll { s0 with widget := r.1 } r.2
      | AppEvent.scrollEv d =>
          let r := handleScrollEventW s0.widget d
          pushAll { s0 with widget := r.1 } r.2
      | AppEvent.core => pushAll s0 [AppEvent.coreAI]
      | AppEvent.coreAI =>
          let r := handleCoreEvent s0.widget AppEvent.coreAI
          pushAll
            { s0 with
                widget := r.1
                pendingAiTasks := s0.pendingAiTasks + (if r.2.2 then 1 else 0) }
            r.2.1
      | AppEvent.aiProcessingComplete =>
          let r := handleCoreEvent s0.widget AppEvent.aiProcessingComplete
          pushAll { s0 with widget := r.1 } r.2.1
      | AppEvent.exitRequest => { s0 with exited := true }
      | AppEvent.mouseCaptureChanged b =>
          pushAll { s0 with widget := setMouseCaptureActiveW s0.widget b }
            [AppEvent.redraw]
      | AppEvent.toggleFullscreen =>
          let fm := !s0.fullscreenMode
          pushAll
            { s0 with
                fullscreenMode := fm
                widget := { s0.widget with fullscreenMode := fm } }
            [AppEvent.redraw]
      | AppEvent.errorEv _ =>
          pushAll { s0 with toastCount := s0.toastCount + 1 } [AppEvent.redraw]

/-- Iterate the event loop. -/
def appStepN : Nat → AppModel → AppModel
  | 0, s => s
  | n + 1, s => appStepN n (appStep s)

/-- The double-submit backlog: the user types a, Enter, c, Enter quickly
enough that all four key events are delivered by the input pump before
the loop reaches the Core event the first submission produced. -/
def doubleSubmitBacklog : List AppEvent :=
  [AppEvent.keyEv (plainKey (KeyCodeM.char 'a')),
    AppEvent.keyEv (plainKey KeyCodeM.enter),
    AppEvent.keyEv (plainKey (KeyCodeM.char 'c')),
    AppEvent.keyEv (plainKey KeyCodeM.enter)]

/-! ### The row count the specification words describe (claim C5)

Two specification-level row-count functions, written from the claim's
words rather than from the source, for comparison with Block.height. -/

/-- The row count exactly as the claim words it: the sum over the lines
of ceil(L/W) rows for a line of display width L (one row for an empty
line), subject only to the hard per-entry row cap of 1000. -/
def specRowCountClaimed (w : Nat) (lines : List (List Char)) : Nat :=
  min ((lines.map fun l =>
    if l.length = 0 then 1 else divCeil l.length w).sum) 1000

/-- The claim's row count amended with the per-line wrap cap the source
applies: a single line contributes at most 100 rows. -/
def specRowCountAmended (w : Nat) (lines : List (List Char)) : Nat :=
  min ((lines.map fun l =>
    if l.length = 0 then 1 else min (divCeil l.length w) 100).sum) 1000

/-- Running saturated row total over a list of entries, as accumulated by
the recomputation loop of ChatHistory::render. -/
def runTotal (w : Nat) (acc : Nat) (es : List Entry) : Nat :=
  es.foldl (fun a e => satAdd a (e.cell.height w)) acc

/-- An agent message of eleven 150-column lines: at width 1 each line
wraps to the per-line cap of 100 rows, so the entry hits the per-entry
row cap of 1000. -/
def cappedBlock : Block :=
  Block.agentMessage (List.replicate 11 (List.replicate 150 'x'))

/-- A history whose first eleven entries alone exceed the cumulative
10000-row cap of the render recomputation loop; the twelfth entry
carries a stale cached count of 7 rows. -/
def c4State : ChatHistoryState :=
  { ChatHistoryState.init with
    entries := List.replicate 11 ⟨cappedBlock, 0⟩ ++
      [⟨Block.agentMessage [['h', 'i']], 7⟩]
    cachedWidth := 80 }

end Corty

namespace Corty

/-! ## Helper lemmas -/

/-- The height accumulation loop computes the clamped sum of the
per-line row contributions. -/
theorem heightLoop_eq (w : Nat) (ls : List (List Char)) (t : Nat) :
    heightLoop w ls t =
      max 1 (min (t + (ls.map fun l => lineRows w l.length).sum) 1000) := by
  induction ls generalizing t with
  | nil => simp [heightLoop]
  | cons l ls ih =>
      simp only [heightLoop, List.map_cons, List.sum_cons]
      by_cases h : t + lineRows w l.length > 1000
      · rw [if_pos h]
        omega
      · rw [if_neg h, ih]
        omega

/-- For a positive width and positive line width the ceiling division is
positive. -/
theorem divCeil_pos (lw w : Nat) (hw : 0 < w) (hlw : 0 < lw) :
    0 < divCeil lw w := by
  unfold divCeil
  exact (Nat.le_div_iff_mul_le hw).mpr (by omega)

/-- For a line no wider than a positive width the ceiling division is
exactly one. -/
theorem divCeil_eq_one (lw w : Nat) (hw : 0 < w) (hlw : 0 < lw)
    (hle : lw ≤ w) : divCeil lw w = 1 := by
  unfold divCeil
  have h1 : lw + w - 1 < w * 2 := by omega
  have h2 : w * 1 ≤ lw + w - 1 := by omega
  have hlt := Nat.div_lt_of_lt_mul h1
  have hge := (Nat.le_div_iff_mul_le hw).mpr (by omega : 1 * w ≤ lw + w - 1)
  omega

/-- At a positive width each per-line row contribution is at least one
row. -/
theorem lineRows_pos (w lw : Nat) (hw : 0 < w) : 0 < lineRows w lw := by
  unfold lineRows
  by_cases h0 : lw = 0
  · simp [h0]
  · by_cases hle : lw ≤ w
    · simp [h0, hle]
    · simp only [h0, hle, if_false]
      have := divCeil_pos lw w hw (by omega)
      omega

/-- For a positive width, the per-line contribution of the source equals
the capped ceiling division of the claim. -/
theorem lineRows_spec (w lw : Nat) (hw : 0 < w) :
    lineRows w lw = if lw = 0 then 1 else min (divCeil lw w) 100 := by
  unfold lineRows
  by_cases h0 : lw = 0
  · simp [h0]
  · by_cases hle : lw ≤ w
    · simp only [h0, hle, if_true, if_false, if_neg h0]
      rw [divCeil_eq_one lw w hw (by omega) hle]
      omega
    · simp [h0, hle]

/-- Page-down is scroll-down by the clamped viewport height. -/
theorem scrollPageDown_eq (st : ChatHistoryState) :
    scrollPageDown st = scrollDown (max st.lastViewportHeight 1) st := rfl

/-- Behaviour of ChatHistory::scroll_down from an explicit position on a
state whose total row count is a valid usize: the position becomes the
stick-to-bottom sentinel exactly when the saturated sum reaches
total − max(viewport, 1), and is the saturated sum otherwise. -/
theorem scrollDown_spec (st : ChatHistoryState) (n : Nat)
    (hpos : st.scrollPosition < USIZE_MAX)
    (htot : st.numRenderedLines ≤ USIZE_MAX) :
    ((scrollDown n st).scrollPosition = USIZE_MAX ↔
      st.numRenderedLines - max st.lastViewportHeight 1 ≤
        satAdd st.scrollPosition n) ∧
    ((scrollDown n st).scrollPosition ≠ USIZE_MAX →
      (scrollDown n st).scrollPosition = satAdd st.scrollPosition n) := by
  have hne : st.scrollPosition ≠ USIZE_MAX := Nat.ne_of_lt hpos
  have hms : st.numRenderedLines - max st.lastViewportHeight 1 ≤ USIZE_MAX :=
    le_trans (Nat.sub_le _ _) htot
  unfold scrollDown
  rw [if_neg hne]
  by_cases h : st.numRenderedLines - max st.lastViewportHeight 1 ≤
      satAdd st.scrollPosition n
  · rw [if_pos (by exact h)]
    simp [h]
  · rw [if_neg (by exact h)]
    have hlt : satAdd st.scrollPosition n < USIZE_MAX := by omega
    exact ⟨⟨fun hEq => absurd hEq (Nat.ne_of_lt hlt), fun hc => absurd hc h⟩,
      fun _ => rfl⟩

/-- The break structure of the render recomputation loop: some prefix of
the entries is recomputed at the new width, the rest is returned
untouched, the loop stops early only past the 10000-row threshold, and
the returned total is the running total over the recomputed prefix. -/
theorem recacheLoop_spec (w : Nat) (es : List Entry) (acc : Nat) :
    ∃ k, k ≤ es.length ∧
      (recacheLoop w es acc).1 =
        ((es.take k).map fun e => (⟨e.cell, e.cell.height w⟩ : Entry)) ++
          es.drop k ∧
      (recacheLoop w es acc).2 = runTotal w acc (es.take k) ∧
      (k < es.length → 10000 < runTotal w acc (es.take k)) := by
  induction es generalizing acc with
  | nil =>
      exact ⟨0, by simp [recacheLoop, runTotal]⟩
  | cons e es ih =>
      by_cases h : satAdd acc (e.cell.height w) > 10000
      · refine ⟨1, by simp, ?_, ?_, ?_⟩
        · simp [recacheLoop, h]
        · simp [recacheLoop, h, runTotal]
        · intro _
          simpa [runTotal] using h
      · obtain ⟨k, hk, hpre, htotal, hbreak⟩ := ih (satAdd acc (e.cell.height w))
        refine ⟨k + 1, by simpa using hk, ?_, ?_, ?_⟩
        · simp [recacheLoop, h, hpre]
        · simp [recacheLoop, h, htotal, runTotal, List.foldl_cons]
        · intro hlt
          have := hbreak (by simpa using hlt)
          simpa [runTotal, List.foldl_cons] using this

/-- Filtering out the working indicators leaves no working indicator. -/
theorem countAiWorking_filter (l : List Entry) :
    countAiWorking (l.filter fun e => !e.cell.isAiWorking) = 0 := by
  induction l with
  | nil => rfl
  | cons e l ih =>
      by_cases h : e.cell.isAiWorking
      · simp only [countAiWorking, List.filter, h, Bool.not_true]
        exact ih
      · simp only [countAiWorking, List.filter, h, Bool.not_false]
        simp only [countAiWorking] at ih
        simp [h, ih]

/-- The i32 reduction stays inside [-2^31, 2^31). -/
theorem wrapI32_range (x : Int) :
    -2 ^ 31 ≤ wrapI32 x ∧ wrapI32 x < 2 ^ 31 := by
  unfold wrapI32
  omega

/-- The i32 reduction is the identity on values already in range. -/
theorem wrapI32_eq_self (x : Int) (hlo : -2 ^ 31 ≤ x) (hhi : x < 2 ^ 31) :
    wrapI32 x = x := by
  unfold wrapI32
  omega

/-- Reducing an already-reduced left summand does not change the reduced
sum (the wrapping addition is associative with the reduction). -/
theorem wrapI32_add_left (a b : Int) :
    wrapI32 (wrapI32 a + b) = wrapI32 (a + b) := by
  unfold wrapI32
  omega

/-- The signed sum of a burst is bounded by the burst's length. -/
theorem netSum_bounds (ts : List Tick) :
    -(ts.length : Int) ≤ netSum ts ∧ netSum ts ≤ ts.length := by
  induction ts with
  | nil => simp [netSum]
  | cons t ts ih =>
      obtain ⟨h1, h2⟩ := ih
      have hv : Tick.val t = 1 ∨ Tick.val t = -1 := by
        cases t
        · exact Or.inr rfl
        · exact Or.inl rfl
      have hstep : netSum (t :: ts) = Tick.val t + netSum ts := by
        simp [netSum]
      rw [hstep]
      simp only [List.length_cons]
      push_cast
      rcases hv with hv | hv <;> rw [hv] <;> constructor <;> omega

/-- The signed sum of a burst of down ticks is the burst's length. -/
theorem netSum_replicate_down (n : Nat) :
    netSum (List.replicate n Tick.down) = n := by
  induction n with
  | zero => simp [netSum]
  | succ n ih =>
      have hstep : netSum (Tick.down :: List.replicate n Tick.down) =
          Tick.val Tick.down + netSum (List.replicate n Tick.down) := by
        simp [netSum]
      rw [List.replicate_succ, hstep, ih, Tick.val]
      push_cast
      ring

/-- Unfolding of the burst recursion on a first tick, stated on the
resulting helper state only. -/
theorem applyTicks_cons_fst (h : ScrollHelper) (t : Tick) (ts : List Tick) :
    (applyTicks h (t :: ts)).1 = (applyTicks (applyTick h t).1 ts).1 := rfl

/-- Ticks applied while the debounce timer is already scheduled start no
further timer and accumulate into the wrapping i32 delta. -/
theorem applyTicks_scheduled (ts : List Tick) (h : ScrollHelper)
    (hs : h.timerScheduled = true) (hlo : -2 ^ 31 ≤ h.delta)
    (hhi : h.delta < 2 ^ 31) :
    (applyTicks h ts).1 = ⟨wrapI32 (h.delta + netSum ts), true⟩ ∧
    (applyTicks h ts).2 = 0 := by
  induction ts generalizing h with
  | nil =>
      refine ⟨?_, rfl⟩
      have hval : wrapI32 (h.delta + netSum []) = h.delta := by
        have hz : netSum ([] : List Tick) = 0 := rfl
        rw [hz, add_zero]
        exact wrapI32_eq_self h.delta hlo hhi
      show h = _
      rw [hval]
      cases h
      simp_all
  | cons t ts ih =>
      have step : applyTick h t =
          (⟨wrapI32 (h.delta + Tick.val t), true⟩, false) := by
        simp [applyTick, scheduleNotification, hs]
      have hr := wrapI32_range (h.delta + Tick.val t)
      obtain ⟨h1, h2⟩ := ih ⟨wrapI32 (h.delta + Tick.val t), true⟩ rfl hr.1 hr.2
      constructor
      · simp only [applyTicks, step, h1]
        have hstep : netSum (t :: ts) = Tick.val t + netSum ts := by
          simp [netSum]
        rw [hstep, wrapI32_add_left, add_assoc]
      · simp [applyTicks, step, h2]


/-- Behaviour of the selection-clamping expression in
CommandPopup::apply_filter: none exactly on the empty list, otherwise an
index inside the list. -/
theorem selClamp (L : List SlashCommand) (pi : Option Nat) :
    ((if L.isEmpty then none
      else some (min (pi.getD 0) (L.length - 1))) = none ↔ L = []) ∧
    (∀ i, (if L.isEmpty then none
      else some (min (pi.getD 0) (L.length - 1))) = some i → i < L.length) := by
  by_cases h : L.isEmpty
  · have hnil : L = [] := by simpa using h
    subst hnil
    simp
  · have hne : L ≠ [] := by simpa using h
    rw [if_neg h]
    constructor
    · simp [hne]
    · intro i hi
      have hi' : i = min (pi.getD 0) (L.length - 1) := (Option.some.inj hi).symm
      have hlen : 0 < L.length := List.length_pos.mpr hne
      omega

/-- CommandPopup::apply_filter keeps the command list and the filter,
computes the filtered list as stated by its branches, and clamps or
clears the selection. -/
theorem applyFilter_spec (q : CommandPopup) :
    q.applyFilter.filteredCommands =
      (if q.filter.isEmpty then q.commands
       else q.commands.filter fun c =>
        (lowerChars q.filter).isPrefixOf (lowerChars c.command)) ∧
    (q.applyFilter.selectedIndex = none ↔ q.applyFilter.filteredCommands = []) ∧
    (∀ i, q.applyFilter.selectedIndex = some i →
      i < q.applyFilter.filteredCommands.length) ∧
    q.applyFilter.filter = q.filter ∧
    q.applyFilter.commands = q.commands :=
  ⟨rfl, (selClamp _ _).1, (selClamp _ _).2, rfl, rfl⟩

/-! ## Claim theorems -/

/-- C1 (counterexample): the claim states that during shutdown the
shutdown flag is set and the input pump is joined before terminal
restoration; in App::run neither the join nor the flag store precedes
the tui::restore() call. -/
theorem c1_counterexample :
    ¬ happensBefore ShutdownStep.joinInputPump ShutdownStep.restoreTerminal ∧
    ¬ happensBefore ShutdownStep.setShutdownFlag ShutdownStep.restoreTerminal := by
  unfold happensBefore
  exact ⟨by decide, by decide⟩

/-- C1 (amended): after the main loop exits on an ExitRequest, App::run
first invokes terminal restoration, then sets the shutdown flag, and
only then joins the input-pump blocking context; the flag store still
happens-before the join, but terminal restoration precedes both. -/
theorem c1_amended :
    happensBefore ShutdownStep.restoreTerminal ShutdownStep.setShutdownFlag ∧
    happensBefore ShutdownStep.setShutdownFlag ShutdownStep.joinInputPump ∧
    happensBefore ShutdownStep.restoreTerminal ShutdownStep.joinInputPump := by
  unfold happensBefore
  exact ⟨by decide, by decide, by decide⟩

/-- C2 (counterexample): with a recorded viewport height of 0 and 2
total rows, scrolling down by one line from explicit offset 0 switches
the state to the PINNED sentinel although the new offset 1 is still
strictly below total_rows − viewport_height = 2, because the code
clamps the viewport height to at least 1 before computing the bound. -/
theorem c2_counterexample :
    (scrollDown 1
      { ChatHistoryState.init with
          scrollPosition := 0
          numRenderedLines := 2
          lastViewportHeight := 0 }).scrollPosition = USIZE_MAX ∧
    satAdd 0 1 < 2 - 0 := by
  exact ⟨by decide, by decide⟩

/-- C2 (amended): for every scroll-down or page-down step applied to an
explicit scroll offset, the state becomes PINNED if and only if the
saturated new offset reaches or exceeds
total_rows − max(viewport_height, 1); otherwise the explicit offset
becomes exactly the saturated sum, so an explicit offset strictly below
that bound is never replaced by a dangling offset at or past it. -/
theorem c2_amended (st : ChatHistoryState) (n : Nat)
    (hpos : st.scrollPosition < USIZE_MAX)
    (htot : st.numRenderedLines ≤ USIZE_MAX) :
    (((scrollDown n st).scrollPosition = USIZE_MAX ↔
      st.numRenderedLines - max st.lastViewportHeight 1 ≤
        satAdd st.scrollPosition n) ∧
    ((scrollDown n st).scrollPosition ≠ USIZE_MAX →
      (scrollDown n st).scrollPosition = satAdd st.scrollPosition n)) ∧
    (((scrollPageDown st).scrollPosition = USIZE_MAX ↔
      st.numRenderedLines - max st.lastViewportHeight 1 ≤
        satAdd st.scrollPosition (max st.lastViewportHeight 1)) ∧
    ((scrollPageDown st).scrollPosition ≠ USIZE_MAX →
      (scrollPageDown st).scrollPosition =
        satAdd st.scrollPosition (max st.lastViewportHeight 1))) := by
  refine ⟨scrollDown_spec st n hpos htot, ?_⟩
  rw [scrollPageDown_eq]
  exact scrollDown_spec st (max st.lastViewportHeight 1) hpos htot

/-- C2 (witness): a concrete pinning scroll-down obtained through the
amended theorem. -/
theorem c2_amended_witness :
    (scrollDown 10
      { ChatHistoryState.init with
          scrollPosition := 15
          numRenderedLines := 30
          lastViewportHeight := 10 }).scrollPosition = USIZE_MAX :=
  ((c2_amended
    { ChatHistoryState.init with
        scrollPosition := 15
        numRenderedLines := 30
        lastViewportHeight := 10 } 10 (by decide) (by decide)).1.1).mpr
    (by decide)

/-- C9: add_to_history pins the scroll position to the bottom sentinel
for every starting state (in particular for explicit scrolled-up
offsets) and every appended block; it appends exactly one entry (cached
at the currently cached width, 0 when no width is known yet) and leaves
every other field of the history state unchanged; the user-message,
agent-message and working-indicator append paths all go through it. -/
theorem c9_append_pins (st : ChatHistoryState) (cell : Block)
    (msg : List Char) :
    (st.addToHistory cell).scrollPosition = USIZE_MAX ∧
    (st.addToHistory cell).entries =
      st.entries ++
        [⟨cell, if st.cachedWidth > 0 then cell.height st.cachedWidth else 0⟩] ∧
    (st.addToHistory cell).cachedWidth = st.cachedWidth ∧
    (st.addToHistory cell).numRenderedLines = st.numRenderedLines ∧
    (st.addToHistory cell).lastViewportHeight = st.lastViewportHeight ∧
    (st.addToHistory cell).hasInputFocus = st.hasInputFocus ∧
    (st.addToHistory cell).mouseCaptureActive = st.mouseCaptureActive ∧
    (st.addUserMessage msg).scrollPosition = USIZE_MAX ∧
    (st.addAgentMessage msg).scrollPosition = USIZE_MAX ∧
    st.addAiWorking.scrollPosition = USIZE_MAX :=
  ⟨rfl, rfl, rfl, rfl, rfl, rfl, rfl, rfl, rfl, rfl⟩

/-- C10 (counterexample): ScrollDelta(2^30) is a representable event
whose absolute value is 2 or more, yet the i32 doubling in
handle_scroll_event wraps 2^31 to -2^31, so the delta applied to the
scroll state is -2^31 (a scroll up), not twice the event's delta. -/
theorem c10_counterexample :
    magnifiedDelta (2 ^ 30) = -(2 ^ 31) ∧
    (-(2 ^ 31) : Int) ≠ 2 * 2 ^ 30 ∧
    2 ≤ ((2 ^ 30 : Int)).natAbs ∧
    (handleScrollEventW ChatWidgetM.new (2 ^ 30)).1.hist =
      scroll (-(2 ^ 31)) ChatWidgetM.new.hist := by
  exact ⟨by decide, by decide, by decide, by decide⟩

/-- C10 (amended): for every i32 delta, handle_scroll_event applies the
magnified delta to the scroll state; the magnified delta equals the raw
delta when its absolute value is 0 or 1, equals twice the raw delta
when its absolute value is 2 or more and the doubled value still fits
in i32 (-2^30 ≤ delta < 2^30), and is in general the doubled value
wrapped to i32 two's complement. -/
theorem c10_magnification (w : ChatWidgetM) (d : Int)
    (hlo : -2 ^ 31 ≤ d) (hhi : d < 2 ^ 31) :
    (handleScrollEventW w d).1.hist = scroll (magnifiedDelta d) w.hist ∧
    (d.natAbs ≤ 1 → magnifiedDelta d = d) ∧
    (2 ≤ d.natAbs → -2 ^ 30 ≤ d → d < 2 ^ 30 → magnifiedDelta d = 2 * d) ∧
    (2 ≤ d.natAbs → magnifiedDelta d = wrapI32 (2 * d)) := by
  refine ⟨rfl, ?_, ?_, ?_⟩
  · intro h
    unfold magnifiedDelta
    by_cases h1 : d.natAbs = 1
    · simp [h1]
    · have hz : d = 0 := by omega
      rw [if_neg h1, hz]
      unfold wrapI32
      omega
  · intro h h2lo h2hi
    have h1 : d.natAbs ≠ 1 := by omega
    unfold magnifiedDelta
    rw [if_neg h1, wrapI32_eq_self (d * 2) (by omega) (by omega)]
    ring
  · intro h
    have h1 : d.natAbs ≠ 1 := by omega
    unfold magnifiedDelta
    rw [if_neg h1, mul_comm]

/-- C10 (witness): the magnification evaluated at the coalesced delta 2
and at the single-line delta 1 through the theorem. -/
theorem c10_magnification_witness :
    magnifiedDelta 2 = 2 * 2 ∧ magnifiedDelta 1 = 1 :=
  ⟨(c10_magnification ChatWidgetM.new 2 (by decide) (by decide)).2.2.1
      (by decide) (by decide) (by decide),
    (c10_magnification ChatWidgetM.new 1 (by decide) (by decide)).2.1
      (by decide)⟩

/-- C3 (counterexample): a burst of 2^31 down ticks has signed sum 2^31,
but the wrapping AtomicI32 accumulator ends at -2^31, so the single
event emitted after the window carries -2^31, not the signed sum. -/
theorem c3_counterexample :
    List.replicate (2 ^ 31) Tick.down ≠ [] ∧
    netSum (List.replicate (2 ^ 31) Tick.down) = 2 ^ 31 ∧
    (fireTimer (applyTicks ScrollHelper.start
      (List.replicate (2 ^ 31) Tick.down)).1).2 = [-(2 ^ 31)] ∧
    ([-(2 ^ 31)] : List Int) ≠ [2 ^ 31] := by
  have hsplit : List.replicate (2 ^ 31) Tick.down =
      Tick.down :: List.replicate (2 ^ 31 - 1) Tick.down := by
    conv_lhs => rw [show (2 ^ 31 : Nat) = (2 ^ 31 - 1) + 1 by norm_num]
    rw [List.replicate_succ]
  refine ⟨?_, ?_, ?_, by decide⟩
  · rw [hsplit]
    exact List.cons_ne_nil _ _
  · rw [netSum_replicate_down]
    norm_num
  · rw [hsplit]
    have stepFst : (applyTick ScrollHelper.start Tick.down).1 =
        (⟨1, true⟩ : ScrollHelper) := by decide
    obtain ⟨h1, _⟩ := applyTicks_scheduled
      (List.replicate (2 ^ 31 - 1) Tick.down) ⟨1, true⟩ rfl
      (by decide) (by decide)
    rw [applyTicks_cons_fst, stepFst, h1, netSum_replicate_down]
    have hw : wrapI32 (1 + ((2 ^ 31 - 1 : Nat) : Int)) = -(2 ^ 31) := by
      unfold wrapI32
      omega
    simp only [fireTimer, hw]
    decide

/-- C3 (amended): a nonempty burst of wheel ticks inside one debounce
window schedules exactly one timer; when the timer fires it emits
exactly one scroll event carrying the signed sum of the ticks as
wrapped to i32 two's complement (nothing when that wrapped sum is
zero) and resets the helper; for every burst of fewer than 2^31 ticks
the wrapped sum is the signed sum itself, and in particular the burst
down, down, up, down emits exactly the single event with delta 2. -/
theorem c3_coalesce (ts : List Tick) (hne : ts ≠ []) :
    (applyTicks ScrollHelper.start ts).2 = 1 ∧
    (applyTicks ScrollHelper.start ts).1.delta = wrapI32 (netSum ts) ∧
    (fireTimer (applyTicks ScrollHelper.start ts).1).2 =
      (if wrapI32 (netSum ts) ≠ 0 then [wrapI32 (netSum ts)] else []) ∧
    (fireTimer (applyTicks ScrollHelper.start ts).1).1 = ScrollHelper.start ∧
    ((ts.length : Int) < 2 ^ 31 →
      (fireTimer (applyTicks ScrollHelper.start ts).1).2 =
        (if netSum ts ≠ 0 then [netSum ts] else [])) ∧
    (fireTimer (applyTicks ScrollHelper.start
      [Tick.down, Tick.down, Tick.up, Tick.down]).1).2 = [2] := by
  have hwrap : wrapI32 (netSum ts) = netSum ts →
      (if wrapI32 (netSum ts) ≠ 0 then [wrapI32 (netSum ts)] else []) =
        (if netSum ts ≠ 0 then [netSum ts] else []) := by
    intro he
    rw [he]
  cases ts with
  | nil => exact absurd rfl hne
  | cons t ts' =>
      have step : applyTick ScrollHelper.start t =
          (⟨Tick.val t, true⟩, true) := by
        cases t <;> rfl
      have hr : -2 ^ 31 ≤ Tick.val t ∧ Tick.val t < 2 ^ 31 := by
        cases t
        · exact ⟨by decide, by decide⟩
        · exact ⟨by decide, by decide⟩
      obtain ⟨h1, h2⟩ := applyTicks_scheduled ts' ⟨Tick.val t, true⟩ rfl
        hr.1 hr.2
      have hdelta : (applyTicks ScrollHelper.start (t :: ts')).1.delta =
          wrapI32 (netSum (t :: ts')) := by
        have hstep : netSum (t :: ts') = Tick.val t + netSum ts' := by
          simp [netSum]
        simp only [applyTicks, step, h1, hstep]
      refine ⟨?_, hdelta, ?_, rfl, ?_, by decide⟩
      · simp [applyTicks, step, h2]
      · simp only [fireTimer, hdelta]
      · intro hlen
        obtain ⟨hb1, hb2⟩ := netSum_bounds (t :: ts')
        have heq : wrapI32 (netSum (t :: ts')) = netSum (t :: ts') :=
          wrapI32_eq_self _ (by omega) (by omega)
        simp only [fireTimer, hdelta, heq]

/-- C3 (witness): the general burst theorem applied to the one-tick
burst. -/
theorem c3_coalesce_witness :
    (applyTicks ScrollHelper.start [Tick.down]).2 = 1 :=
  (c3_coalesce [Tick.down] (by decide)).1

set_option maxRecDepth 100000 in
/-- C6: the claim says every reachable chat-widget state holds at most
one live working indicator; processing the double-submit backlog for
twelve loop iterations is a reachable execution that leaves two live
working indicators in the history (handle_core_event neither checks
ai_processing nor removes an existing indicator, and the second
submission passes the input gate because ai_processing only becomes
true when the first CoreAI event is finally handled). -/
theorem c6_two_indicators :
    countAiWorking
      ((appStepN 12 (AppModel.start doubleSubmitBacklog)).widget.hist.entries)
        = 2 ∧
    (appStepN 12 (AppModel.start doubleSubmitBacklog)).widget.aiProcessing
        = true := by
  exact ⟨by decide, by decide⟩

set_option maxRecDepth 100000 in
/-- C4 (counterexample): rendering at a fresh width a history whose
first eleven entries already exceed the cumulative 10000-row cap leaves
the twelfth entry's cached count stale at 7 although its height at the
new width is 2, so not every entry is recomputed on a width change. -/
theorem c4_counterexample :
    ((renderRecache c4State 1).1.entries.map Entry.lineCount) =
      List.replicate 11 1000 ++ [7] ∧
    (renderRecache c4State 1).1.cachedWidth = 1 ∧
    Block.height (Block.agentMessage [['h', 'i']]) 1 = 2 ∧
    (7 : Nat) ≠ 2 := by
  exact ⟨by decide, by decide, by decide, by decide⟩

/-- C4 (amended): on a render at a width different from the cached one,
the render recomputes, exactly once and at the new width, the cached
counts of a prefix of at most the first 1000 entries, leaves every entry
past that prefix untouched (so their counts may stay stale), and the
prefix stops short of that limit only when the running saturated row
total has exceeded 10000. -/
theorem c4_amended (st : ChatHistoryState) (w : Nat)
    (hw : w ≠ st.cachedWidth) :
    (renderRecache st w).1.cachedWidth = w ∧
    ∃ k, k ≤ min st.entries.length 1000 ∧
      (renderRecache st w).1.entries =
        ((st.entries.take k).map fun e => (⟨e.cell, e.cell.height w⟩ : Entry)) ++
          st.entries.drop k ∧
      (k < min st.entries.length 1000 →
        10000 < runTotal w 0 (st.entries.take k)) := by
  have hne : st.cachedWidth ≠ w := Ne.symm hw
  unfold renderRecache
  rw [if_pos hne]
  obtain ⟨k, hk, hpre, _, hbreak⟩ := recacheLoop_spec w (st.entries.take 1000) 0
  have hklen : k ≤ min st.entries.length 1000 := by
    rw [List.length_take] at hk
    omega
  have h1 : (st.entries.take 1000).take k = st.entries.take k := by
    rw [List.take_take]
    congr 1
    omega
  refine ⟨rfl, k, hklen, ?_, ?_⟩
  · show (recacheLoop w (st.entries.take 1000) 0).1 ++ st.entries.drop 1000 = _
    rw [hpre, h1]
    rw [List.append_assoc]
    congr 1
    have h2 : st.entries.drop 1000 = (st.entries.drop k).drop (1000 - k) := by
      rw [List.drop_drop]
      congr 1
      omega
    rw [h2, List.drop_take]
    exact List.take_append_drop _ _
  · intro hlt
    have hb := hbreak (by rw [List.length_take]; omega)
    rwa [h1] at hb

/-- C4 (witness): the amended theorem applied to a one-entry history
rendered at a fresh width. -/
theorem c4_amended_witness :
    (renderRecache
      { ChatHistoryState.init with entries := [⟨Block.aiWorking 0, 9⟩] }
      5).1.cachedWidth = 5 :=
  (c4_amended
    { ChatHistoryState.init with entries := [⟨Block.aiWorking 0, 9⟩] }
    5 (by decide)).1

set_option maxRecDepth 100000 in
/-- C5 (counterexample): a user message built from a single 198-column
line occupies, at width 1, 101 rows under the source (the per-line wrap
cap of 100 plus one row for the trailing empty line), while the claim's
formula (ceil division without a per-line cap, subject only to the
per-entry cap) predicts 201 rows. -/
theorem c5_counterexample :
    Block.height (Block.newUserMessage (List.replicate 198 'x')) 1 = 101 ∧
    specRowCountClaimed 1 (newUserMessageLines (List.replicate 198 'x')) = 201 ∧
    (101 : Nat) ≠ 201 := by
  exact ⟨by decide, by decide, by decide⟩

/-- C5 (amended): for a positive width and a nonempty stored line list,
an entry at or below the 500-line exactness threshold occupies the sum
over its lines of ceil(L/W) rows (one row for an empty line), with each
line capped at 100 rows, the whole capped by the per-entry limit of
1000; past the threshold the exact computation is replaced by the
estimate of twice the stored line count, capped at 5000. -/
theorem c5_amended (lines : List (List Char)) (w : Nat) (hw : 0 < w)
    (hne : lines ≠ []) :
    (lines.length ≤ 500 →
      Block.height (Block.userMessage lines) w = specRowCountAmended w lines ∧
      Block.height (Block.agentMessage lines) w = specRowCountAmended w lines) ∧
    (500 < lines.length →
      Block.height (Block.userMessage lines) w = min (lines.length * 2) 5000 ∧
      Block.height (Block.agentMessage lines) w =
        min (lines.length * 2) 5000) := by
  have hw0 : ¬(w = 0 ∨ lines = []) := by
    push_neg
    exact ⟨by omega, hne⟩
  constructor
  · intro hle
    have hnotgt : ¬ lines.length > 500 := by omega
    have hcore : heightLoop w lines 0 = specRowCountAmended w lines := by
      rw [heightLoop_eq]
      unfold specRowCountAmended
      have hmapeq : (lines.map fun l => lineRows w l.length) =
          lines.map fun l =>
            if l.length = 0 then 1 else min (divCeil l.length w) 100 := by
        apply List.map_congr_left
        intro l _
        exact lineRows_spec w l.length hw
      rw [zero_add, hmapeq]
      have hpos : 0 < (lines.map fun l =>
          if l.length = 0 then 1 else min (divCeil l.length w) 100).sum := by
        apply List.sum_pos
        · intro a ha
          obtain ⟨l, _, rfl⟩ := List.mem_map.mp ha
          by_cases h0 : l.length = 0
          · simp [h0]
          · simp only [h0, if_false]
            have := divCeil_pos l.length w hw (by omega)
            omega
        · simpa using hne
      omega
    constructor
    · simp only [Block.height]
      rw [if_neg hw0, if_neg hnotgt]
      exact hcore
    · simp only [Block.height]
      rw [if_neg hw0, if_neg hnotgt]
      exact hcore
  · intro hgt
    constructor
    · simp only [Block.height]
      rw [if_neg hw0, if_pos hgt]
    · simp only [Block.height]
      rw [if_neg hw0, if_pos hgt]

/-- C5 (witness): the amended row count evaluated on a two-line entry
through the theorem. -/
theorem c5_amended_witness :
    Block.height (Block.userMessage [['a', 'b', 'c'], []]) 2 =
      specRowCountAmended 2 [['a', 'b', 'c'], []] :=
  ((c5_amended [['a', 'b', 'c'], []] 2 (by decide) (by decide)).1
    (by decide)).1

/-- C7: for every palette over the built-in command list and every input
text, after update_filter the filtered list is exactly the commands
whose name has the extracted filter as a case-insensitive front piece,
in original order; the selection is none exactly when the filtered list
is empty and otherwise an index inside it; in particular the filter
text cl keeps exactly clear with selection 0 and the filter text z
keeps nothing with no selection. -/
theorem c7_filter (p : CommandPopup) (text : List Char)
    (hc : p.commands = builtInSlashCommands) :
    ((p.updateFilter text).filter = extractFilter text) ∧
    ((p.updateFilter text).filteredCommands =
      builtInSlashCommands.filter fun c =>
        (lowerChars (extractFilter text)).isPrefixOf (lowerChars c.command)) ∧
    ((p.updateFilter text).selectedIndex = none ↔
      (p.updateFilter text).filteredCommands = []) ∧
    (∀ i, (p.updateFilter text).selectedIndex = some i →
      i < (p.updateFilter text).filteredCommands.length) ∧
    (CommandPopup.new.updateFilter "/cl".toList).filteredCommands =
      [SlashCommand.clear] ∧
    (CommandPopup.new.updateFilter "/cl".toList).selectedIndex = some 0 ∧
    (CommandPopup.new.updateFilter "/z".toList).filteredCommands = [] ∧
    (CommandPopup.new.updateFilter "/z".toList).selectedIndex = none := by
  obtain ⟨ha, hb, hsel, _, _⟩ :=
    applyFilter_spec { p with filter := extractFilter text }
  refine ⟨rfl, ?_, hb, hsel, by decide, by decide, by decide, by decide⟩
  show ({ p with filter := extractFilter text } : CommandPopup).applyFilter.filteredCommands = _
  rw [ha]
  by_cases hf : (extractFilter text).isEmpty
  · have hnil : extractFilter text = [] := by simpa using hf
    rw [if_pos hf, hnil, hc]
    decide
  · rw [if_neg hf]
    rw [hc]

/-- C7 (witness): the filter theorem applied to the fresh palette and
the input text "/cl". -/
theorem c7_filter_witness :
    CommandPopup.new.commands = builtInSlashCommands ∧
    (CommandPopup.new.updateFilter "/cl".toList).selectedIndex = some 0 :=
  ⟨rfl, (c7_filter CommandPopup.new "/cl".toList rfl).2.2.2.2.2.1⟩

/-- Appending an agent message entry does not change the indicator
count. -/
theorem countAiWorking_append_agent (l : List Entry) (msg : List Char)
    (c : Nat) :
    countAiWorking (l ++ [⟨Block.newAgentMessage msg, c⟩]) =
      countAiWorking l := by
  simp [countAiWorking, List.filter_append, Block.newAgentMessage,
    Block.isAiWorking]

/-- C8: from any widget state with processing active, handling the
processing-complete event clears the processing flag and the start
timestamp, leaves no working indicator in the transcript, and appends
exactly one agent error message entry after the surviving entries. -/
theorem c8_completion_clears (w : ChatWidgetM) (_hp : w.aiProcessing = true) :
    (handleCoreEvent w AppEvent.aiProcessingComplete).1.aiProcessing = false ∧
    (handleCoreEvent w AppEvent.aiProcessingComplete).1.aiWorkingStart
      = none ∧
    countAiWorking
      (handleCoreEvent w AppEvent.aiProcessingComplete).1.hist.entries = 0 ∧
    ∃ c, (handleCoreEvent w AppEvent.aiProcessingComplete).1.hist.entries =
      (w.hist.entries.filter fun e => !e.cell.isAiWorking) ++
        [⟨Block.newAgentMessage aiErrorResponse, c⟩] := by
  have hent : (handleCoreEvent w AppEvent.aiProcessingComplete).1.hist.entries =
      (w.hist.entries.filter fun e => !e.cell.isAiWorking) ++
        [⟨Block.newAgentMessage aiErrorResponse,
          if w.hist.cachedWidth > 0 then
            (Block.newAgentMessage aiErrorResponse).height w.hist.cachedWidth
          else 0⟩] := by
    cases hsave : w.savedTextareaContent with
    | none =>
        simp [handleCoreEvent, hsave, ChatHistoryState.addAgentMessage,
          ChatHistoryState.addToHistory, ChatHistoryState.removeAiWorking]
    | some content =>
        simp [handleCoreEvent, hsave, ChatHistoryState.addAgentMessage,
          ChatHistoryState.addToHistory, ChatHistoryState.removeAiWorking]
  have hflag : (handleCoreEvent w AppEvent.aiProcessingComplete).1.aiProcessing
      = false := by
    cases hsave : w.savedTextareaContent with
    | none => simp [handleCoreEvent, hsave]
    | some content => simp [handleCoreEvent, hsave]
  have hstart : (handleCoreEvent w AppEvent.aiProcessingComplete).1.aiWorkingStart
      = none := by
    cases hsave : w.savedTextareaContent with
    | none => simp [handleCoreEvent, hsave]
    | some content => simp [handleCoreEvent, hsave]
  refine ⟨hflag, hstart, ?_, _, hent⟩
  rw [hent, countAiWorking_append_agent, countAiWorking_filter]

/-- C8 (witness): the completion theorem applied to a concrete widget
state that is processing with one working indicator on screen. -/
theorem c8_completion_clears_witness :
    (handleCoreEvent
      { ChatWidgetM.new with
          aiProcessing := true
          hist := ChatHistoryState.init.addAiWorking }
      AppEvent.aiProcessingComplete).1.aiProcessing = false :=
  (c8_completion_clears
    { ChatWidgetM.new with
        aiProcessing := true
        hist := ChatHistoryState.init.addAiWorking } rfl).1

end Corty
